import Mathlib

/-!
Verification of the batch oracle-crank pipeline (src/src/main.rs).

The program collects one update instruction per price feed from an external
relay, merges the lookup tables the feeds depend on (first-seen-wins, keyed
by table identifier), plans a compute budget from the feed count, compiles
and signs a single versioned transaction, dry-runs it via RPC simulation,
and submits it only if the simulation reported no execution error.

The shallow embedding below models the pure logic directly and models the
external collaborators (relay, RPC endpoint, sdk compile/sign size checks)
as an explicit environment of request/response functions; every network
interaction is recorded in an event trace so that claims about "no call
happens after/before X" become statements about the trace.
-/

deriving instance DecidableEq for Except

namespace SwbCrank

/-- Account identifiers (Solana pubkeys) are opaque; we model them as Nat. -/
abbrev Pubkey := Nat

/-- A recent blockhash (the freshness anchor), opaque. -/
abbrev Blockhash := Nat

/-- A transaction signature returned by the ledger, opaque. -/
abbrev TxSig := Nat

/-- Opaque error payloads carried by external-collaborator failures. -/
abbrev ErrMsg := Nat

/-- Commitment levels used by the RPC client (solana_sdk CommitmentConfig). -/
inductive Commitment where
  | processed
  | confirmed
  | finalized
  deriving DecidableEq

/-- solana_sdk AddressLookupTableAccount: a table identity plus the account
list it expands to.  Dedup is by `key`, not structural equality. -/
structure AddressLookupTableAccount where
  key : Pubkey
  addresses : List Pubkey
  deriving DecidableEq

/-- Instructions appearing in the transaction: the two compute-budget
instructions built locally (ComputeBudgetInstruction::set_compute_unit_limit
/ set_compute_unit_price) and the opaque update instructions returned by the
relay collaborator. -/
inductive Instruction where
  | setComputeUnitLimit (units : Nat)
  | setComputeUnitPrice (microLamports : Nat)
  | update (programId : Pubkey) (data : List Nat) (accounts : List Pubkey)
  deriving DecidableEq

/-- switchboard FetchUpdateParams as constructed in the per-feed loop. -/
structure FetchUpdateParams where
  feed : Pubkey
  payer : Pubkey
  numSignatures : Option Nat
  debug : Option Bool
  deriving DecidableEq

/-- RpcSimulateTransactionConfig as passed to
simulate_transaction_with_config. -/
structure SimConfig where
  sigVerify : Bool
  replaceRecentBlockhash : Bool
  commitment : Option Commitment
  encoding : Option Nat
  accounts : Option (List Pubkey)
  minContextSlot : Option Nat
  innerInstructions : Bool
  deriving DecidableEq

/-- v0::Message as produced by v0::Message::try_compile: the payer, the
instruction sequence, the lookup tables used for compilation, and the
freshness anchor. -/
structure V0Message where
  payerKey : Pubkey
  instructions : List Instruction
  addressLookupTables : List AddressLookupTableAccount
  recentBlockhash : Blockhash
  deriving DecidableEq

/-- A signed versioned transaction (VersionedTransaction). -/
structure VersionedTransaction where
  message : V0Message
  signatures : List Nat
  deriving DecidableEq

/-- The payer credential: a public identifier plus a (deterministic) signing
function over compiled messages. -/
structure Keypair where
  pubkey : Pubkey
  sign : V0Message → Nat

/-- The value part of an RPC simulation response: optional log lines and an
optional execution error (sim.value.logs / sim.value.err). -/
structure SimResponse where
  logs : Option (List Nat)
  err : Option ErrMsg
  deriving DecidableEq

/-- The 4-tuple returned by PullFeed::fetch_update_ix:
(update_ix, _responses, _num_ok, luts). -/
structure RelayOutput where
  updateIx : Instruction
  responses : List Nat
  numOk : Nat
  luts : List AddressLookupTableAccount
  deriving DecidableEq

/-- The external collaborators, modelled as request/response functions:
the oracle relay, the ledger RPC endpoint, and the sdk size check performed
by try_compile (whose exact byte-level limit is outside this repository). -/
structure Env where
  relay : FetchUpdateParams → Except ErrMsg RelayOutput
  latestBlockhash : Except ErrMsg Blockhash
  compileOk : V0Message → Bool
  simulate : VersionedTransaction → SimConfig → Except ErrMsg SimResponse
  sendAndConfirm : VersionedTransaction → Except ErrMsg TxSig

/-- Typed top-level pipeline failures (anyhow::Error provenance). -/
inductive PipelineError where
  | noFeeds
  | collectionError (e : ErrMsg)
  | rpcError (e : ErrMsg)
  | compileError (e : ErrMsg)
  | signError (e : ErrMsg)
  | simulationFailed (e : ErrMsg)
  | submissionError (e : ErrMsg)
  deriving DecidableEq

/-- Network interactions, in the order the pipeline performs them. -/
inductive NetEvent where
  | relayFetch (params : FetchUpdateParams)
  | getLatestBlockhash (c : Commitment)
  | simulate (tx : VersionedTransaction) (cfg : SimConfig)
  | sendConfirm (tx : VersionedTransaction) (c : Commitment)
  deriving DecidableEq

/-! ## Compute budget planner (main.rs lines 107-121) -/

/-- per_feed_cu in the source: target ~300k compute units per feed. -/
def PER_FEED_CU : Nat := 300000

/-- The floor the source clamps the unit limit up to. -/
def MIN_CU : Nat := 300000

/-- The ceiling the source clamps the unit limit down to (the ledger's hard
per-transaction maximum). -/
def MAX_CU : Nat := 1400000

/-- The fixed compute-unit price policy constant. -/
def UNIT_PRICE : Nat := 5000

/-- The modulus of u32 arithmetic, 2^32. -/
def U32_MOD : Nat := 4294967296

/-- The compute-unit limit computed from the feed count, mirroring
`per_feed_cu.saturating_mul(feeds.len() as u32)` followed by the two
sequential clamping ifs.  `feeds.len() as u32` truncates the usize length
modulo 2^32; saturating_mul caps the 32-bit product at u32::MAX. -/
def cuLimitOfLen (n : Nat) : Nat :=
  let len32 := n % U32_MOD
  let cu0 := min (PER_FEED_CU * len32) (U32_MOD - 1)
  let cu1 := if cu0 < 300000 then 300000 else cu0
  if cu1 > 1400000 then 1400000 else cu1

/-- Modelled from the spec: the clamp function the spec states the unit
limit equals, clamp(x, lo, hi) with lo ≤ hi.  Used only to compare the
source computation against the spec formula. -/
def clamp (lo hi x : Nat) : Nat := max lo (min x hi)

/-- The two compute-budget instructions, unit limit first, then unit price. -/
def budgetIxs (n : Nat) : List Instruction :=
  [Instruction.setComputeUnitLimit (cuLimitOfLen n),
   Instruction.setComputeUnitPrice UNIT_PRICE]

/-! ## Lookup-table deduplication (main.rs lines 78, 98-104)

The HashMap is embedded as an insertion-ordered association list; the entry
API `lut_map.entry(lut.key).or_insert(lut)` becomes `lutInsert`. -/

/-- Lookup by table identifier in the association-list embedding of the
HashMap (first binding wins, matching HashMap semantics since keys are
never duplicated by lutInsert). -/
def lutFind (m : List (Pubkey × AddressLookupTableAccount)) (k : Pubkey) :
    Option AddressLookupTableAccount :=
  match m with
  | [] => none
  | (a, v) :: rest => if a = k then some v else lutFind rest k

/-- The entry API call `lut_map.entry(lut.key).or_insert(lut)`: insert only
when the key is absent, keeping the first-seen instance. -/
def lutInsert (m : List (Pubkey × AddressLookupTableAccount))
    (lut : AddressLookupTableAccount) :
    List (Pubkey × AddressLookupTableAccount) :=
  if (lutFind m lut.key).isSome then m else m ++ [(lut.key, lut)]

/-- The inner merge loop: for lut in luts, entry-or-insert by lut.key. -/
def lutMergeList (m : List (Pubkey × AddressLookupTableAccount))
    (luts : List AddressLookupTableAccount) :
    List (Pubkey × AddressLookupTableAccount) :=
  luts.foldl lutInsert m

/-- Folding a whole sequence of per-feed lookup-table lists into one
deduplicated mapping, as the collection loop does feed by feed. -/
def lutMergeAll (lls : List (List AddressLookupTableAccount)) :
    List (Pubkey × AddressLookupTableAccount) :=
  lls.foldl lutMergeList []

/-- The first table with a given identifier in a flat list: the reference
"first-seen instance" for the dedup claims. -/
def firstWithKey (k : Pubkey) :
    List AddressLookupTableAccount → Option AddressLookupTableAccount
  | [] => none
  | l :: rest => if l.key = k then some l else firstWithKey k rest

/-! ## The pipeline (main.rs lines 41-166) -/

/-- The FetchUpdateParams built in the per-feed loop: the feed, the payer's
pubkey, num_signatures = Some(1), debug = Some(false). -/
def mkParams (payerPk : Pubkey) (feed : Pubkey) : FetchUpdateParams :=
  { feed := feed, payer := payerPk, numSignatures := some 1, debug := some false }

/-- The simulation configuration literal from main.rs lines 136-144. -/
def simCfg : SimConfig :=
  { sigVerify := true
    replaceRecentBlockhash := false
    commitment := some Commitment.processed
    encoding := none
    accounts := none
    minContextSlot := none
    innerInstructions := true }

/-- The per-feed collection loop (main.rs lines 80-102): for each feed, in
order, call PullFeed::fetch_update_ix, push the update instruction, and merge
the returned lookup tables first-seen-wins; the first failure aborts the
whole loop (`.await?`), propagating the relay error verbatim.  Returns the
accumulated (instructions, lut map) or the error, plus the network trace. -/
def collectLoop (env : Env) (payerPk : Pubkey) (feeds : List Pubkey)
    (acc : List Instruction) (lutMap : List (Pubkey × AddressLookupTableAccount)) :
    Except ErrMsg (List Instruction × List (Pubkey × AddressLookupTableAccount))
      × List NetEvent :=
  match feeds with
  | [] => (.ok (acc, lutMap), [])
  | f :: rest =>
    match env.relay (mkParams payerPk f) with
    | .error e => (.error e, [NetEvent.relayFetch (mkParams payerPk f)])
    | .ok out =>
      let r := collectLoop env payerPk rest (acc ++ [out.updateIx])
        (lutMergeList lutMap out.luts)
      (r.1, NetEvent.relayFetch (mkParams payerPk f) :: r.2)

/-- v0::Message::try_compile: builds the message from payer, instructions,
lookup tables and blockhash; fails when the message would exceed the
platform size/account limits, a check performed inside the sdk and abstracted
here as the environment's compileOk predicate. -/
def tryCompile (env : Env) (payerPk : Pubkey) (ixs : List Instruction)
    (luts : List AddressLookupTableAccount) (bh : Blockhash) :
    Except ErrMsg V0Message :=
  let msg : V0Message :=
    { payerKey := payerPk, instructions := ixs
      addressLookupTables := luts, recentBlockhash := bh }
  if env.compileOk msg then .ok msg else .error 0

/-- The transaction produced by signing a compiled message with the payer. -/
def signedTx (kp : Keypair) (msg : V0Message) : VersionedTransaction :=
  { message := msg, signatures := [kp.sign msg] }

/-- VersionedTransaction::try_new(VersionedMessage::V0(msg), &[&payer]):
signing fails when the supplied credential does not match the message's
declared payer. -/
def tryNew (msg : V0Message) (kp : Keypair) : Except ErrMsg VersionedTransaction :=
  if kp.pubkey = msg.payerKey then .ok (signedTx kp msg) else .error 1

/-- Simulation gate plus submitter (main.rs lines 133-159): dry-run the
signed transaction with simCfg; an RPC transport failure propagates; an
execution error reported by the simulation aborts with that error; otherwise
the same transaction value is sent and confirmed at the client's confirmed
commitment. -/
def submitStage (env : Env) (vtx : VersionedTransaction) :
    Except PipelineError TxSig × List NetEvent :=
  match env.simulate vtx simCfg with
  | .error e => (.error (.rpcError e), [NetEvent.simulate vtx simCfg])
  | .ok sim =>
    match sim.err with
    | some e => (.error (.simulationFailed e), [NetEvent.simulate vtx simCfg])
    | none =>
      match env.sendAndConfirm vtx with
      | .error e =>
        (.error (.submissionError e),
         [NetEvent.simulate vtx simCfg,
          NetEvent.sendConfirm vtx Commitment.confirmed])
      | .ok sig =>
        (.ok sig,
         [NetEvent.simulate vtx simCfg,
          NetEvent.sendConfirm vtx Commitment.confirmed])

/-- Budget planning, blockhash fetch, compilation and signing
(main.rs lines 107-131), followed by the submit stage.  The blockhash is
fetched at the client's confirmed commitment. -/
def assembleStage (env : Env) (kp : Keypair) (nFeeds : Nat)
    (updateIxs : List Instruction) (mergedLuts : List AddressLookupTableAccount) :
    Except PipelineError TxSig × List NetEvent :=
  match env.latestBlockhash with
  | .error e => (.error (.rpcError e), [NetEvent.getLatestBlockhash Commitment.confirmed])
  | .ok bh =>
    match tryCompile env kp.pubkey (budgetIxs nFeeds ++ updateIxs) mergedLuts bh with
    | .error e => (.error (.compileError e), [NetEvent.getLatestBlockhash Commitment.confirmed])
    | .ok msg =>
      match tryNew msg kp with
      | .error e => (.error (.signError e), [NetEvent.getLatestBlockhash Commitment.confirmed])
      | .ok vtx =>
        let r := submitStage env vtx
        (r.1, NetEvent.getLatestBlockhash Commitment.confirmed :: r.2)

/-- The whole pipeline over an already-parsed feed list (main.rs main):
the empty-feed configuration check, the collection loop, then assembly,
simulation and submission.  The second component is the ordered trace of all
network interactions performed. -/
def runPipeline (env : Env) (kp : Keypair) (feeds : List Pubkey) :
    Except PipelineError TxSig × List NetEvent :=
  if feeds.isEmpty then (.error .noFeeds, [])
  else
    let c := collectLoop env kp.pubkey feeds [] []
    match c.1 with
    | .error e => (.error (.collectionError e), c.2)
    | .ok (updateIxs, lutMap) =>
      let a := assembleStage env kp feeds.length updateIxs (lutMap.map Prod.snd)
      (a.1, c.2 ++ a.2)

/-! ## Concrete fixtures used by the witness theorems -/

/-- A concrete payer credential with a constant signing function. -/
def kp0 : Keypair := { pubkey := 1, sign := fun _ => 7 }

/-- A concrete lookup table. -/
def lut0 : AddressLookupTableAccount := { key := 50, addresses := [51, 52] }

/-- A concrete opaque update instruction. -/
def ix0 : Instruction := .update 90 [1, 2] [3]

/-- A concrete relay response. -/
def out0 : RelayOutput := { updateIx := ix0, responses := [], numOk := 1, luts := [lut0] }

/-- An environment in which every external call succeeds. -/
def env0 : Env :=
  { relay := fun _ => .ok out0
    latestBlockhash := .ok 77
    compileOk := fun _ => true
    simulate := fun _ _ => .ok { logs := some [5], err := none }
    sendAndConfirm := fun _ => .ok 99 }

/-- Like env0, but the simulation dry run reports execution error 3. -/
def envSimErr : Env :=
  { env0 with simulate := fun _ _ => .ok { logs := none, err := some 3 } }

/-- Like env0, but every relay request fails with the same opaque error 0. -/
def envRelayErr : Env :=
  { env0 with relay := fun _ => .error 0 }

/-- Like env0, but the relay request for feed 20 fails with error 5. -/
def envRelayErr20 : Env :=
  { env0 with relay := fun p => if p.feed = 20 then .error 5 else .ok out0 }

/-- The message the pipeline compiles for env0-style runs over one feed. -/
def msg0 : V0Message :=
  { payerKey := 1, instructions := budgetIxs 1 ++ [ix0]
    addressLookupTables := [lut0], recentBlockhash := 77 }

/-- The signed transaction for msg0 under kp0. -/
def tx0 : VersionedTransaction := { message := msg0, signatures := [7] }

/-! ## Structural lemmas about the pipeline -/

/-- The relay-fetch events generated for a list of feeds, in order. -/
def relayEvents (pk : Pubkey) (feeds : List Pubkey) : List NetEvent :=
  feeds.map (fun f => NetEvent.relayFetch (mkParams pk f))

/-- The message the assembler compiles for a given payer, feed count,
collected update instructions, merged tables and anchor. -/
def compiledMsg (payerPk : Pubkey) (n : Nat) (ups : List Instruction)
    (luts : List AddressLookupTableAccount) (bh : Blockhash) : V0Message :=
  { payerKey := payerPk, instructions := budgetIxs n ++ ups
    addressLookupTables := luts, recentBlockhash := bh }

/-- The one transaction the pipeline compiles and signs. -/
def assembledTx (kp : Keypair) (n : Nat) (ups : List Instruction)
    (luts : List AddressLookupTableAccount) (bh : Blockhash) : VersionedTransaction :=
  signedTx kp (compiledMsg kp.pubkey n ups luts bh)

/-- The four possible outcomes of the simulate-then-send tail of the
pipeline, for transaction vtx, relative to a trace prefix. -/
def SubmitOutcome (env : Env) (vtx : VersionedTransaction) (pre : List NetEvent)
    (r : Except PipelineError TxSig × List NetEvent) : Prop :=
  (∃ e, env.simulate vtx simCfg = .error e ∧
     r = (.error (.rpcError e), pre ++ [NetEvent.simulate vtx simCfg])) ∨
  (∃ s e, env.simulate vtx simCfg = .ok s ∧ s.err = some e ∧
     r = (.error (.simulationFailed e), pre ++ [NetEvent.simulate vtx simCfg])) ∨
  (∃ s e, env.simulate vtx simCfg = .ok s ∧ s.err = none ∧
     env.sendAndConfirm vtx = .error e ∧
     r = (.error (.submissionError e),
          pre ++ [NetEvent.simulate vtx simCfg,
                  NetEvent.sendConfirm vtx Commitment.confirmed])) ∨
  (∃ s sig, env.simulate vtx simCfg = .ok s ∧ s.err = none ∧
     env.sendAndConfirm vtx = .ok sig ∧
     r = (.ok sig,
          pre ++ [NetEvent.simulate vtx simCfg,
                  NetEvent.sendConfirm vtx Commitment.confirmed]))

/-- Case analysis of the submit stage. -/
theorem submit_shape (env : Env) (vtx : VersionedTransaction) :
    SubmitOutcome env vtx [] (submitStage env vtx) := by
  unfold SubmitOutcome
  rcases hs : env.simulate vtx simCfg with e | s
  · exact Or.inl ⟨e, rfl, by simp [submitStage, hs]⟩
  · rcases herr : s.err with _ | e
    · rcases hsend : env.sendAndConfirm vtx with e2 | sig
      · exact Or.inr (Or.inr (Or.inl ⟨s, e2, rfl, herr, rfl,
          by simp [submitStage, hs, herr, hsend]⟩))
      · exact Or.inr (Or.inr (Or.inr ⟨s, sig, rfl, herr, rfl,
          by simp [submitStage, hs, herr, hsend]⟩))
    · exact Or.inr (Or.inl ⟨s, e, rfl, herr, by simp [submitStage, hs, herr]⟩)

/-- A submit outcome can be re-rooted under a longer trace prefix. -/
theorem submitOutcome_prefix (env : Env) (vtx : VersionedTransaction)
    (pre : List NetEvent) (r : Except PipelineError TxSig × List NetEvent)
    (h : SubmitOutcome env vtx [] r) :
    SubmitOutcome env vtx pre (r.1, pre ++ r.2) := by
  unfold SubmitOutcome at h ⊢
  rcases h with ⟨e, hs, hr⟩ | ⟨s, e, hs, herr, hr⟩ |
    ⟨s, e, hs, herr, hsend, hr⟩ | ⟨s, sig, hs, herr, hsend, hr⟩
  · subst hr; exact Or.inl ⟨e, hs, by simp⟩
  · subst hr; exact Or.inr (Or.inl ⟨s, e, hs, herr, by simp⟩)
  · subst hr; exact Or.inr (Or.inr (Or.inl ⟨s, e, hs, herr, hsend, by simp⟩))
  · subst hr; exact Or.inr (Or.inr (Or.inr ⟨s, sig, hs, herr, hsend, by simp⟩))

/-- Every event emitted by the collection loop is a relay fetch. -/
theorem collect_trace_relay (env : Env) (pk : Pubkey) :
    ∀ (feeds : List Pubkey) (acc : List Instruction)
      (m : List (Pubkey × AddressLookupTableAccount)) (ev : NetEvent),
      ev ∈ (collectLoop env pk feeds acc m).2 → ∃ p, ev = NetEvent.relayFetch p := by
  intro feeds
  induction feeds with
  | nil => intro acc m ev h; simp [collectLoop] at h
  | cons f rest ih =>
    intro acc m ev h
    rcases hrel : env.relay (mkParams pk f) with e | out
    · simp [collectLoop, hrel] at h
      exact ⟨_, h⟩
    · simp [collectLoop, hrel] at h
      rcases h with h | h
      · exact ⟨_, h⟩
      · exact ih _ _ _ h

/-- When the collection loop succeeds, it returns the accumulator extended
with one update instruction per feed, in feed order, each produced by the
relay for that feed; its trace is exactly one relay fetch per feed. -/
theorem collect_ok_spec (env : Env) (pk : Pubkey) :
    ∀ (feeds : List Pubkey) (acc : List Instruction)
      (m : List (Pubkey × AddressLookupTableAccount))
      (ixs : List Instruction) (m2 : List (Pubkey × AddressLookupTableAccount)),
      (collectLoop env pk feeds acc m).1 = .ok (ixs, m2) →
      (∃ ups, ixs = acc ++ ups ∧
        List.Forall₂ (fun f ix => ∃ out,
          env.relay (mkParams pk f) = .ok out ∧ out.updateIx = ix) feeds ups) ∧
      (collectLoop env pk feeds acc m).2 = relayEvents pk feeds := by
  intro feeds
  induction feeds with
  | nil =>
    intro acc m ixs m2 h
    simp [collectLoop] at h
    exact ⟨⟨[], by simp [h.1.symm], List.Forall₂.nil⟩, by simp [collectLoop, relayEvents]⟩
  | cons f rest ih =>
    intro acc m ixs m2 h
    rcases hrel : env.relay (mkParams pk f) with e | out
    · simp [collectLoop, hrel] at h
    · simp only [collectLoop, hrel] at h
      obtain ⟨⟨ups, hixs, hfa⟩, htr⟩ := ih (acc ++ [out.updateIx]) (lutMergeList m out.luts) ixs m2 h
      refine ⟨⟨out.updateIx :: ups, by simp [hixs], ?_⟩, ?_⟩
      · exact List.Forall₂.cons ⟨out, hrel, rfl⟩ hfa
      · simp [collectLoop, hrel, htr, relayEvents]

/-- When the relay request for one feed fails after all earlier feeds
succeeded, the whole loop stops there: it returns exactly the relay's error
and a trace of the fetches up to and including the failing feed. -/
theorem collect_err_spec (env : Env) (pk : Pubkey) :
    ∀ (pre : List Pubkey) (f : Pubkey) (post : List Pubkey) (e : ErrMsg)
      (acc : List Instruction) (m : List (Pubkey × AddressLookupTableAccount)),
      (∀ g ∈ pre, ∃ out, env.relay (mkParams pk g) = .ok out) →
      env.relay (mkParams pk f) = .error e →
      collectLoop env pk (pre ++ f :: post) acc m =
        (.error e, relayEvents pk (pre ++ [f])) := by
  intro pre
  induction pre with
  | nil =>
    intro f post e acc m _ hf
    simp [collectLoop, hf, relayEvents]
  | cons g pre2 ih =>
    intro f post e acc m hpre hf
    obtain ⟨out, hg⟩ := hpre g (by simp)
    have hrest := ih f post e (acc ++ [out.updateIx]) (lutMergeList m out.luts)
      (fun x hx => hpre x (by simp [hx])) hf
    simp [collectLoop, hg, hrest, relayEvents]

/-- Assembly stage equation: blockhash fetch failure. -/
theorem assemble_bh_err (env : Env) (kp : Keypair) (n : Nat)
    (ups : List Instruction) (luts : List AddressLookupTableAccount) (e : ErrMsg)
    (h : env.latestBlockhash = .error e) :
    assembleStage env kp n ups luts =
      (.error (.rpcError e), [NetEvent.getLatestBlockhash Commitment.confirmed]) := by
  unfold assembleStage
  simp [h]

/-- Assembly stage equation: compilation rejected by the size check. -/
theorem assemble_compile_err (env : Env) (kp : Keypair) (n : Nat)
    (ups : List Instruction) (luts : List AddressLookupTableAccount) (bh : Blockhash)
    (h : env.latestBlockhash = .ok bh)
    (hcomp : env.compileOk (compiledMsg kp.pubkey n ups luts bh) = false) :
    assembleStage env kp n ups luts =
      (.error (.compileError 0), [NetEvent.getLatestBlockhash Commitment.confirmed]) := by
  unfold assembleStage tryCompile
  simp only [compiledMsg] at hcomp
  simp [h, hcomp]

/-- Assembly stage equation: compile and sign succeed, so the stage is the
blockhash event followed by the submit stage on the assembled transaction. -/
theorem assemble_ok (env : Env) (kp : Keypair) (n : Nat)
    (ups : List Instruction) (luts : List AddressLookupTableAccount) (bh : Blockhash)
    (h : env.latestBlockhash = .ok bh)
    (hcomp : env.compileOk (compiledMsg kp.pubkey n ups luts bh) = true) :
    assembleStage env kp n ups luts =
      ((submitStage env (assembledTx kp n ups luts bh)).1,
       NetEvent.getLatestBlockhash Commitment.confirmed ::
         (submitStage env (assembledTx kp n ups luts bh)).2) := by
  unfold assembleStage tryCompile tryNew
  simp only [compiledMsg] at hcomp
  simp [h, hcomp, assembledTx, signedTx, compiledMsg]

/-- Pipeline equation: the collection loop failed. -/
theorem run_collect_err (env : Env) (kp : Keypair) (feeds : List Pubkey) (e : ErrMsg)
    (hne : feeds.isEmpty = false)
    (hc : (collectLoop env kp.pubkey feeds [] []).1 = .error e) :
    runPipeline env kp feeds =
      (.error (.collectionError e), (collectLoop env kp.pubkey feeds [] []).2) := by
  unfold runPipeline
  simp [hne, hc]

/-- Pipeline equation: the collection loop succeeded. -/
theorem run_collect_ok (env : Env) (kp : Keypair) (feeds : List Pubkey)
    (ups : List Instruction) (lmap : List (Pubkey × AddressLookupTableAccount))
    (hne : feeds.isEmpty = false)
    (hc : (collectLoop env kp.pubkey feeds [] []).1 = .ok (ups, lmap)) :
    runPipeline env kp feeds =
      ((assembleStage env kp feeds.length ups (lmap.map Prod.snd)).1,
       (collectLoop env kp.pubkey feeds [] []).2 ++
         (assembleStage env kp feeds.length ups (lmap.map Prod.snd)).2) := by
  unfold runPipeline
  simp [hne, hc]

/-- Exhaustive case analysis of a pipeline run: every run is one of the
outcomes below, each with its exact result value and network trace. -/
theorem run_shape (env : Env) (kp : Keypair) (feeds : List Pubkey) :
    (feeds = [] ∧ runPipeline env kp feeds = (.error .noFeeds, [])) ∨
    (∃ e, (collectLoop env kp.pubkey feeds [] []).1 = .error e ∧
       runPipeline env kp feeds =
         (.error (.collectionError e), (collectLoop env kp.pubkey feeds [] []).2)) ∨
    (∃ ups lmap,
       (collectLoop env kp.pubkey feeds [] []).1 = .ok (ups, lmap) ∧
       List.Forall₂ (fun f ix => ∃ out,
         env.relay (mkParams kp.pubkey f) = .ok out ∧ out.updateIx = ix) feeds ups ∧
       (collectLoop env kp.pubkey feeds [] []).2 = relayEvents kp.pubkey feeds ∧
       ((∃ e, env.latestBlockhash = .error e ∧
           runPipeline env kp feeds =
             (.error (.rpcError e),
              relayEvents kp.pubkey feeds ++
                [NetEvent.getLatestBlockhash Commitment.confirmed])) ∨
        (∃ bh, env.latestBlockhash = .ok bh ∧
           env.compileOk (compiledMsg kp.pubkey feeds.length ups (lmap.map Prod.snd) bh) = false ∧
           runPipeline env kp feeds =
             (.error (.compileError 0),
              relayEvents kp.pubkey feeds ++
                [NetEvent.getLatestBlockhash Commitment.confirmed])) ∨
        (∃ bh, env.latestBlockhash = .ok bh ∧
           env.compileOk (compiledMsg kp.pubkey feeds.length ups (lmap.map Prod.snd) bh) = true ∧
           SubmitOutcome env (assembledTx kp feeds.length ups (lmap.map Prod.snd) bh)
             (relayEvents kp.pubkey feeds ++
               [NetEvent.getLatestBlockhash Commitment.confirmed])
             (runPipeline env kp feeds)))) := by
  cases hfe : feeds.isEmpty with
  | true =>
    have hnil : feeds = [] := by
      cases feeds with
      | nil => rfl
      | cons a l => simp [List.isEmpty] at hfe
    subst hnil
    exact Or.inl ⟨rfl, rfl⟩
  | false =>
    rcases hc : (collectLoop env kp.pubkey feeds [] []).1 with e | ⟨ups, lmap⟩
    · exact Or.inr (Or.inl ⟨e, rfl, run_collect_err env kp feeds e hfe hc⟩)
    · obtain ⟨⟨ups2, hups2, hfa⟩, htr⟩ :=
        collect_ok_spec env kp.pubkey feeds [] [] ups lmap hc
      simp only [List.nil_append] at hups2
      subst hups2
      have hrun := run_collect_ok env kp feeds ups lmap hfe hc
      refine Or.inr (Or.inr ⟨ups, lmap, rfl, hfa, htr, ?_⟩)
      rcases hbh : env.latestBlockhash with e | bh
      · have ha := assemble_bh_err env kp feeds.length ups (lmap.map Prod.snd) e hbh
        exact Or.inl ⟨e, rfl, by rw [hrun, ha, htr]⟩
      · cases hcomp : env.compileOk (compiledMsg kp.pubkey feeds.length ups (lmap.map Prod.snd) bh) with
        | false =>
          have ha := assemble_compile_err env kp feeds.length ups (lmap.map Prod.snd) bh hbh hcomp
          exact Or.inr (Or.inl ⟨bh, rfl, hcomp, by rw [hrun, ha, htr]⟩)
        | true =>
          have ha := assemble_ok env kp feeds.length ups (lmap.map Prod.snd) bh hbh hcomp
          refine Or.inr (Or.inr ⟨bh, rfl, hcomp, ?_⟩)
          have heq : runPipeline env kp feeds =
              ((submitStage env (assembledTx kp feeds.length ups (lmap.map Prod.snd) bh)).1,
               (relayEvents kp.pubkey feeds ++
                 [NetEvent.getLatestBlockhash Commitment.confirmed]) ++
                 (submitStage env (assembledTx kp feeds.length ups (lmap.map Prod.snd) bh)).2) := by
            rw [hrun, ha, htr]
            simp
          rw [heq]
          exact submitOutcome_prefix env _ _ _ (submit_shape env _)

/-! ## Lookup-table merge lemmas -/

/-- Left-biased choice on optional tables. -/
def optOr (a b : Option AddressLookupTableAccount) : Option AddressLookupTableAccount :=
  match a with
  | some v => some v
  | none => b

theorem optOr_none_right (a : Option AddressLookupTableAccount) : optOr a none = a := by
  cases a <;> rfl

theorem optOr_assoc (a b c : Option AddressLookupTableAccount) :
    optOr (optOr a b) c = optOr a (optOr b c) := by
  cases a <;> rfl

theorem lutFind_append_some {m1 : List (Pubkey × AddressLookupTableAccount)}
    {k : Pubkey} {v : AddressLookupTableAccount}
    (m2 : List (Pubkey × AddressLookupTableAccount)) (h : lutFind m1 k = some v) :
    lutFind (m1 ++ m2) k = some v := by
  induction m1 with
  | nil => simp [lutFind] at h
  | cons p rest ih =>
    obtain ⟨a, w⟩ := p
    by_cases hak : a = k
    · simp [lutFind, hak] at h ⊢
      exact h
    · simp [lutFind, hak] at h ⊢
      exact ih h

theorem lutFind_append_none {m1 : List (Pubkey × AddressLookupTableAccount)}
    {k : Pubkey} (m2 : List (Pubkey × AddressLookupTableAccount))
    (h : lutFind m1 k = none) :
    lutFind (m1 ++ m2) k = lutFind m2 k := by
  induction m1 with
  | nil => simp
  | cons p rest ih =>
    obtain ⟨a, w⟩ := p
    by_cases hak : a = k
    · simp [lutFind, hak] at h
    · simp [lutFind, hak] at h ⊢
      exact ih h

/-- Folding one feed's table list into the map: a key already bound keeps
its binding; an unbound key receives the first table in the list carrying
it. -/
theorem mergeList_find (k : Pubkey) :
    ∀ (luts : List AddressLookupTableAccount)
      (m : List (Pubkey × AddressLookupTableAccount)),
      lutFind (lutMergeList m luts) k = optOr (lutFind m k) (firstWithKey k luts) := by
  intro luts
  induction luts with
  | nil =>
    intro m
    simp [lutMergeList, firstWithKey, optOr_none_right]
  | cons l ls ih =>
    intro m
    have hstep : lutMergeList m (l :: ls) = lutMergeList (lutInsert m l) ls := rfl
    rw [hstep, ih]
    rcases hm : lutFind m k with _ | v
    · by_cases hlk : l.key = k
      · have hmlk : lutFind m l.key = none := by rw [hlk]; exact hm
        have hins : lutFind (lutInsert m l) k = some l := by
          rw [lutInsert, hmlk]
          simp
          rw [lutFind_append_none _ hm, hlk]
          simp [lutFind]
        simp [hins, hm, optOr, firstWithKey, hlk]
      · have hins : lutFind (lutInsert m l) k = none := by
          rw [lutInsert]
          rcases hml : lutFind m l.key with _ | w
          · simp [hml]
            rw [lutFind_append_none _ hm]
            simp [lutFind, hlk]
          · simp [hml]
            exact hm
        simp [hins, hm, optOr, firstWithKey, hlk]
    · have hins : lutFind (lutInsert m l) k = some v := by
        rw [lutInsert]
        rcases hml : lutFind m l.key with _ | w
        · simp [hml]
          exact lutFind_append_some _ hm
        · simp [hml]
          exact hm
      simp [hins, hm, optOr]

theorem firstWithKey_append (k : Pubkey) (a b : List AddressLookupTableAccount) :
    firstWithKey k (a ++ b) = optOr (firstWithKey k a) (firstWithKey k b) := by
  induction a with
  | nil => simp [firstWithKey, optOr]
  | cons l ls ih =>
    by_cases hlk : l.key = k
    · simp [firstWithKey, hlk, optOr]
    · simp [firstWithKey, hlk, ih]

/-- The deduplicated mapping binds each identifier to the first-seen table
carrying it, across the concatenation of all per-feed table lists. -/
theorem mergeAll_find (k : Pubkey) (lls : List (List AddressLookupTableAccount)) :
    lutFind (lutMergeAll lls) k = firstWithKey k lls.flatten := by
  have main : ∀ (L : List (List AddressLookupTableAccount))
      (m : List (Pubkey × AddressLookupTableAccount)),
      lutFind (L.foldl lutMergeList m) k = optOr (lutFind m k) (firstWithKey k L.flatten) := by
    intro L
    induction L with
    | nil =>
      intro m
      simp [firstWithKey, optOr_none_right]
    | cons l ls ih =>
      intro m
      have hstep : (l :: ls).foldl lutMergeList m = ls.foldl lutMergeList (lutMergeList m l) := rfl
      rw [hstep, ih, mergeList_find, optOr_assoc, List.flatten_cons, firstWithKey_append]
  have := main lls []
  simpa [lutMergeAll, lutFind, optOr] using this

/-- An identifier is bound in the merged mapping exactly when some input
table carries it. -/
theorem mergeAll_isSome_iff (k : Pubkey) (lls : List (List AddressLookupTableAccount)) :
    (lutFind (lutMergeAll lls) k).isSome ↔
      k ∈ lls.flatten.map AddressLookupTableAccount.key := by
  rw [mergeAll_find]
  induction lls.flatten with
  | nil => simp [firstWithKey]
  | cons l ls ih =>
    by_cases hlk : l.key = k
    · simp [firstWithKey, hlk]
    · simp [firstWithKey, hlk, ih]
      intro h
      exact absurd h.symm hlk

/-- Membership of an identifier among the input tables is invariant under
permuting the per-feed lists. -/
theorem mem_join_keys_perm {lls lls2 : List (List AddressLookupTableAccount)}
    (k : Pubkey) (h : lls.Perm lls2) :
    (k ∈ lls.flatten.map AddressLookupTableAccount.key ↔
     k ∈ lls2.flatten.map AddressLookupTableAccount.key) := by
  simp only [List.mem_map, List.mem_flatten]
  constructor
  · rintro ⟨a, ⟨l, hl, hal⟩, hk⟩
    exact ⟨a, ⟨l, h.mem_iff.mp hl, hal⟩, hk⟩
  · rintro ⟨a, ⟨l, hl, hal⟩, hk⟩
    exact ⟨a, ⟨l, h.mem_iff.mpr hl, hal⟩, hk⟩

/-! ## Compute-budget arithmetic -/

/-- For feed counts below 2^32 the source computation agrees with the spec's
clamp formula. -/
theorem cuLimit_eq_clamp_of_lt {n : Nat} (h : n < U32_MOD) :
    cuLimitOfLen n = clamp MIN_CU MAX_CU (n * PER_FEED_CU) := by
  simp only [cuLimitOfLen, clamp, MIN_CU, MAX_CU, PER_FEED_CU, U32_MOD] at *
  rw [Nat.mod_eq_of_lt h]
  split_ifs <;> omega

/-- The final unit limit is always within [MIN_CU, MAX_CU], for every feed
count. -/
theorem cuLimit_bounds (n : Nat) :
    MIN_CU ≤ cuLimitOfLen n ∧ cuLimitOfLen n ≤ MAX_CU := by
  simp only [cuLimitOfLen, MIN_CU, MAX_CU, PER_FEED_CU, U32_MOD]
  split_ifs <;> omega

/-- The computation only depends on the feed count modulo 2^32 (the
`as u32` truncation happens first). -/
theorem cuLimit_mod (n : Nat) : cuLimitOfLen n = cuLimitOfLen (n % U32_MOD) := by
  have h : n % U32_MOD % U32_MOD = n % U32_MOD := Nat.mod_mod_of_dvd n dvd_rfl
  simp only [cuLimitOfLen, h]

/-! ## Claim theorems -/

/-- C5: for an empty feed sequence the pipeline fails with the dedicated
configuration error (no-feeds bail) and its network trace is empty: no relay
request, no blockhash fetch, no simulation, no submission. -/
theorem swb_C5_empty_feeds (env : Env) (kp : Keypair) :
    runPipeline env kp [] = (.error .noFeeds, []) := rfl

/-- C7: lookup-table merging is governed by table identity: the merged
mapping binds an identifier exactly when some input table carries it (so its
key set is the set of distinct identifiers across all inputs), the retained
instance is the first-seen one in fold order, merging the same inputs again
changes nothing (idempotence), and key-set membership is invariant under
permuting the per-feed table lists (order-independence at identity level). -/
theorem swb_C7_lut_merge (lls lls2 : List (List AddressLookupTableAccount)) (k : Pubkey) :
    lutFind (lutMergeAll lls) k = firstWithKey k lls.flatten ∧
    ((lutFind (lutMergeAll lls) k).isSome ↔
      k ∈ lls.flatten.map AddressLookupTableAccount.key) ∧
    lutFind (lutMergeAll (lls ++ lls)) k = lutFind (lutMergeAll lls) k ∧
    (lls.Perm lls2 →
      ((lutFind (lutMergeAll lls) k).isSome ↔ (lutFind (lutMergeAll lls2) k).isSome)) := by
  refine ⟨mergeAll_find k lls, mergeAll_isSome_iff k lls, ?_, ?_⟩
  · rw [mergeAll_find, mergeAll_find, List.flatten_append, firstWithKey_append]
    cases h : firstWithKey k lls.flatten <;> simp [optOr, h]
  · intro hperm
    rw [mergeAll_isSome_iff, mergeAll_isSome_iff]
    exact mem_join_keys_perm k hperm

/-- A concrete table with identifier 1. -/
def lutA : AddressLookupTableAccount := { key := 1, addresses := [] }

/-- A structurally different table with the same identifier 1. -/
def lutA2 : AddressLookupTableAccount := { key := 1, addresses := [100] }

/-- A concrete table with identifier 2. -/
def lutB : AddressLookupTableAccount := { key := 2, addresses := [9] }

/-- Witness for C7 at a concrete permuted pair of inputs. -/
theorem swb_C7_witness :
    ([[lutA, lutB], [lutA2]] : List (List AddressLookupTableAccount)).Perm
        [[lutA2], [lutA, lutB]] ∧
    ((lutFind (lutMergeAll [[lutA, lutB], [lutA2]]) 1).isSome ↔
      (lutFind (lutMergeAll [[lutA2], [lutA, lutB]]) 1).isSome) := by
  have hperm : ([[lutA, lutB], [lutA2]] : List (List AddressLookupTableAccount)).Perm
      [[lutA2], [lutA, lutB]] := List.Perm.swap _ _ _
  exact ⟨hperm, (swb_C7_lut_merge [[lutA, lutB], [lutA2]] [[lutA2], [lutA, lutB]] 1).2.2.2 hperm⟩

/-- C2 counterexample: for the (mathematically well-formed) non-empty feed
sequence of length 2^32, the `as u32` truncation makes the computed limit
300,000 whereas the claim's clamp formula gives 1,400,000, so the claimed
exact equality fails for that sequence. -/
theorem swb_C2_counterexample :
    List.replicate 4294967296 (0 : Pubkey) ≠ [] ∧
    cuLimitOfLen (List.replicate 4294967296 (0 : Pubkey)).length = 300000 ∧
    clamp MIN_CU MAX_CU ((List.replicate 4294967296 (0 : Pubkey)).length * PER_FEED_CU) =
      1400000 := by
  refine ⟨?_, ?_, ?_⟩
  · intro h
    have h2 := congrArg List.length h
    rw [List.length_replicate, List.length_nil] at h2
    exact absurd h2 (by decide)
  · rw [List.length_replicate]
    decide
  · rw [List.length_replicate]
    decide

/-- C2 (amended): for every non-empty feed sequence whose length fits in a
32-bit unsigned integer, the computed compute-unit limit equals
clamp(N × 300,000, 300,000, 1,400,000) exactly; and for every feed sequence
whatsoever the limit lies in [300,000, 1,400,000] (the saturating multiply
and the two clamps prevent any overflow). -/
theorem swb_C2_cu_limit (feeds : List Pubkey) :
    (feeds ≠ [] → feeds.length < U32_MOD →
      cuLimitOfLen feeds.length = clamp MIN_CU MAX_CU (feeds.length * PER_FEED_CU)) ∧
    MIN_CU ≤ cuLimitOfLen feeds.length ∧ cuLimitOfLen feeds.length ≤ MAX_CU :=
  ⟨fun _ h => cuLimit_eq_clamp_of_lt h, cuLimit_bounds feeds.length⟩

/-- Witness for C2 at the concrete 3-feed sequence. -/
theorem swb_C2_witness :
    ([0, 0, 0] : List Pubkey) ≠ [] ∧ ([0, 0, 0] : List Pubkey).length < U32_MOD ∧
    cuLimitOfLen ([0, 0, 0] : List Pubkey).length =
      clamp MIN_CU MAX_CU (([0, 0, 0] : List Pubkey).length * PER_FEED_CU) :=
  ⟨by decide, by decide, (swb_C2_cu_limit [0, 0, 0]).1 (by decide) (by decide)⟩

/-- C9: the computation truncates the feed count to 32 bits first (it only
depends on N mod 2^32); for every count that fits in 32 bits the result is
exactly clamp(N × 300,000, 300,000, 1,400,000); and the final limit lies in
[300,000, 1,400,000] for every feed count, because the multiply saturates at
2^32 − 1 and the result is then clamped. -/
theorem swb_C9_cu_truncation (n : Nat) :
    cuLimitOfLen n = cuLimitOfLen (n % U32_MOD) ∧
    (n < U32_MOD → cuLimitOfLen n = clamp MIN_CU MAX_CU (n * PER_FEED_CU)) ∧
    MIN_CU ≤ cuLimitOfLen n ∧ cuLimitOfLen n ≤ MAX_CU :=
  ⟨cuLimit_mod n, fun h => cuLimit_eq_clamp_of_lt h, cuLimit_bounds n⟩

/-- Witness for C9 at n = 14318, where the 32-bit multiply saturates and the
clamp still gives the ceiling. -/
theorem swb_C9_witness :
    (14318 : Nat) < U32_MOD ∧
    cuLimitOfLen 14318 = clamp MIN_CU MAX_CU (14318 * PER_FEED_CU) :=
  ⟨by decide, (swb_C9_cu_truncation 14318).2.1 (by decide)⟩

/-- C1: if the simulation dry run of a transaction the pipeline actually
simulated reports an execution error, the run's top-level result is exactly
the simulation-failed error carrying that error detail, and no send/confirm
event occurs anywhere in the run's trace: the transaction is never
submitted. -/
theorem swb_C1_sim_error_aborts (env : Env) (kp : Keypair) (feeds : List Pubkey)
    (tx : VersionedTransaction) (cfg : SimConfig) (s : SimResponse) (e : ErrMsg)
    (hmem : NetEvent.simulate tx cfg ∈ (runPipeline env kp feeds).2)
    (hsim : env.simulate tx cfg = .ok s) (herr : s.err = some e) :
    (runPipeline env kp feeds).1 = .error (.simulationFailed e) ∧
    ∀ tx2 c, NetEvent.sendConfirm tx2 c ∉ (runPipeline env kp feeds).2 := by
  rcases run_shape env kp feeds with ⟨hnil, hrun⟩ | ⟨e2, hc, hrun⟩ |
    ⟨ups, lmap, hc, hfa, htr, hrest⟩
  · rw [hrun] at hmem
    simp at hmem
  · rw [hrun] at hmem
    obtain ⟨p, hp⟩ := collect_trace_relay env kp.pubkey feeds [] [] _ hmem
    simp at hp
  · rcases hrest with ⟨e2, hbh, hrun⟩ | ⟨bh, hbh, hcomp, hrun⟩ | ⟨bh, hbh, hcomp, hsub⟩
    · rw [hrun] at hmem
      simp [relayEvents] at hmem
    · rw [hrun] at hmem
      simp [relayEvents] at hmem
    · unfold SubmitOutcome at hsub
      rcases hsub with ⟨e2, hs, hr⟩ | ⟨s2, e2, hs, herr2, hr⟩ |
        ⟨s2, e2, hs, herr2, hsend, hr⟩ | ⟨s2, sg, hs, herr2, hsend, hr⟩
      · rw [hr] at hmem
        simp [relayEvents] at hmem
        obtain ⟨htx, hcfg⟩ := hmem
        subst htx
        subst hcfg
        rw [hsim] at hs
        simp at hs
      · rw [hr] at hmem
        simp [relayEvents] at hmem
        obtain ⟨htx, hcfg⟩ := hmem
        subst htx
        subst hcfg
        rw [hsim] at hs
        have hs2 : s = s2 := by injection hs
        subst hs2
        rw [herr] at herr2
        have he : e = e2 := by injection herr2
        subst he
        constructor
        · rw [hr]
        · intro tx2 c hmem2
          rw [hr] at hmem2
          simp [relayEvents] at hmem2
      · rw [hr] at hmem
        simp [relayEvents] at hmem
        obtain ⟨htx, hcfg⟩ := hmem
        subst htx
        subst hcfg
        rw [hsim] at hs
        have hs2 : s = s2 := by injection hs
        subst hs2
        rw [herr] at herr2
        simp at herr2
      · rw [hr] at hmem
        simp [relayEvents] at hmem
        obtain ⟨htx, hcfg⟩ := hmem
        subst htx
        subst hcfg
        rw [hsim] at hs
        have hs2 : s = s2 := by injection hs
        subst hs2
        rw [herr] at herr2
        simp at herr2

end SwbCrank

namespace SwbCrank

/-- Witness for C1: a concrete run whose simulation reports error 3. -/
theorem swb_C1_witness :
    NetEvent.simulate tx0 simCfg ∈ (runPipeline envSimErr kp0 [10]).2 ∧
    envSimErr.simulate tx0 simCfg = .ok { logs := none, err := some 3 } ∧
    (runPipeline envSimErr kp0 [10]).1 = .error (.simulationFailed 3) :=
  ⟨by decide, by decide,
   (swb_C1_sim_error_aborts envSimErr kp0 [10] tx0 simCfg { logs := none, err := some 3 } 3
     (by decide) (by decide) rfl).1⟩

/-- C3: every transaction the pipeline submits to simulation (hence the one
compiled transaction of the run) carries exactly the two compute-budget
instructions first — unit limit, then unit price — followed by one update
instruction per feed, each being the relay's output for that feed, in the
exact order the feeds were supplied. -/
theorem swb_C3_instruction_order (env : Env) (kp : Keypair) (feeds : List Pubkey)
    (tx : VersionedTransaction) (cfg : SimConfig)
    (hmem : NetEvent.simulate tx cfg ∈ (runPipeline env kp feeds).2) :
    ∃ ups, tx.message.instructions =
        Instruction.setComputeUnitLimit (cuLimitOfLen feeds.length) ::
        Instruction.setComputeUnitPrice UNIT_PRICE :: ups ∧
      List.Forall₂ (fun f ix => ∃ out,
        env.relay (mkParams kp.pubkey f) = .ok out ∧ out.updateIx = ix) feeds ups := by
  rcases run_shape env kp feeds with ⟨hnil, hrun⟩ | ⟨e2, hc, hrun⟩ |
    ⟨ups, lmap, hc, hfa, htr, hrest⟩
  · rw [hrun] at hmem
    simp at hmem
  · rw [hrun] at hmem
    obtain ⟨p, hp⟩ := collect_trace_relay env kp.pubkey feeds [] [] _ hmem
    simp at hp
  · have hgoal : ∀ bh : Blockhash,
        tx = assembledTx kp feeds.length ups (lmap.map Prod.snd) bh →
        ∃ ups2, tx.message.instructions =
            Instruction.setComputeUnitLimit (cuLimitOfLen feeds.length) ::
            Instruction.setComputeUnitPrice UNIT_PRICE :: ups2 ∧
          List.Forall₂ (fun f ix => ∃ out,
            env.relay (mkParams kp.pubkey f) = .ok out ∧ out.updateIx = ix) feeds ups2 := by
      intro bh htx
      refine ⟨ups, ?_, hfa⟩
      rw [htx]
      simp [assembledTx, signedTx, compiledMsg, budgetIxs]
    rcases hrest with ⟨e2, hbh, hrun⟩ | ⟨bh, hbh, hcomp, hrun⟩ | ⟨bh, hbh, hcomp, hsub⟩
    · rw [hrun] at hmem
      simp [relayEvents] at hmem
    · rw [hrun] at hmem
      simp [relayEvents] at hmem
    · unfold SubmitOutcome at hsub
      rcases hsub with ⟨e2, hs, hr⟩ | ⟨s2, e2, hs, herr2, hr⟩ |
        ⟨s2, e2, hs, herr2, hsend, hr⟩ | ⟨s2, sg, hs, herr2, hsend, hr⟩ <;>
        rw [hr] at hmem <;> simp [relayEvents] at hmem
      · exact hgoal bh hmem.1
      · exact hgoal bh hmem.1
      · exact hgoal bh hmem.1
      · exact hgoal bh hmem.1

/-- Witness for C3: the single-feed concrete run. -/
theorem swb_C3_witness :
    NetEvent.simulate tx0 simCfg ∈ (runPipeline env0 kp0 [10]).2 ∧
    (∃ ups, tx0.message.instructions =
        Instruction.setComputeUnitLimit (cuLimitOfLen 1) ::
        Instruction.setComputeUnitPrice UNIT_PRICE :: ups ∧
      List.Forall₂ (fun f ix => ∃ out,
        env0.relay (mkParams kp0.pubkey f) = .ok out ∧ out.updateIx = ix) [10] ups) :=
  ⟨by decide, swb_C3_instruction_order env0 kp0 [10] tx0 simCfg (by decide)⟩

end SwbCrank

namespace SwbCrank

/-- C4 counterexample: the code propagates the relay's error verbatim with
no feed identity attached, so runs in which different feeds fail produce
identical top-level errors — the error value does not identify which feed
failed. -/
theorem swb_C4_counterexample :
    (10 : Pubkey) ≠ 20 ∧
    (runPipeline envRelayErr kp0 [10]).1 = .error (.collectionError 0) ∧
    (runPipeline envRelayErr kp0 [20]).1 = .error (.collectionError 0) ∧
    (runPipeline envRelayErr kp0 [10]).1 = (runPipeline envRelayErr kp0 [20]).1 :=
  ⟨by decide, by decide, by decide, by decide⟩

/-- C4 (amended): if the relay request for one feed fails after the earlier
feeds succeeded, the whole pipeline aborts with the relay's error propagated
verbatim as a collection error, and its trace consists of exactly the relay
fetches up to and including the failing feed — no blockhash fetch, no
simulation, no submission, so no transaction is assembled or sent (the
failing feed is named by the progress line printed before the request, not
by the propagated error value). -/
theorem swb_C4_collect_abort (env : Env) (kp : Keypair)
    (pre : List Pubkey) (f : Pubkey) (post : List Pubkey) (e : ErrMsg)
    (hpre : ∀ g ∈ pre, ∃ out, env.relay (mkParams kp.pubkey g) = .ok out)
    (hf : env.relay (mkParams kp.pubkey f) = .error e) :
    runPipeline env kp (pre ++ f :: post) =
      (.error (.collectionError e), relayEvents kp.pubkey (pre ++ [f])) := by
  have hne : (pre ++ f :: post).isEmpty = false := by
    cases pre <;> rfl
  have hc := collect_err_spec env kp.pubkey pre f post e [] [] hpre hf
  have hc1 : (collectLoop env kp.pubkey (pre ++ f :: post) [] []).1 = .error e := by
    rw [hc]
  have hrun := run_collect_err env kp (pre ++ f :: post) e hne hc1
  rw [hrun, hc]

/-- Witness for C4: three feeds, the second one failing. -/
theorem swb_C4_witness :
    envRelayErr20.relay (mkParams kp0.pubkey 20) = .error 5 ∧
    runPipeline envRelayErr20 kp0 ([10] ++ 20 :: [30]) =
      (.error (.collectionError 5), relayEvents kp0.pubkey ([10] ++ [20])) :=
  ⟨by decide,
   swb_C4_collect_abort envRelayErr20 kp0 [10] 20 [30] 5
     (by
       intro g hg
       have hg10 : g = 10 := by simpa using hg
       subst hg10
       exact ⟨out0, by decide⟩)
     (by decide)⟩

/-- C6: a transaction is sent only if the identical transaction value was
simulated (same message — anchor, instructions, lookup tables — and same
signatures) and the simulation reported no error; moreover the run contains
no other simulated or sent transaction, so nothing is re-compiled or
re-signed between the simulation gate and submission. -/
theorem swb_C6_sent_equals_simulated (env : Env) (kp : Keypair) (feeds : List Pubkey)
    (tx : VersionedTransaction) (c : Commitment)
    (hmem : NetEvent.sendConfirm tx c ∈ (runPipeline env kp feeds).2) :
    NetEvent.simulate tx simCfg ∈ (runPipeline env kp feeds).2 ∧
    (∃ s, env.simulate tx simCfg = .ok s ∧ s.err = none) ∧
    (∀ tx2 cfg2, NetEvent.simulate tx2 cfg2 ∈ (runPipeline env kp feeds).2 → tx2 = tx) ∧
    (∀ tx2 c2, NetEvent.sendConfirm tx2 c2 ∈ (runPipeline env kp feeds).2 → tx2 = tx) := by
  rcases run_shape env kp feeds with ⟨hnil, hrun⟩ | ⟨e2, hc, hrun⟩ |
    ⟨ups, lmap, hc, hfa, htr, hrest⟩
  · rw [hrun] at hmem
    simp at hmem
  · rw [hrun] at hmem
    obtain ⟨p, hp⟩ := collect_trace_relay env kp.pubkey feeds [] [] _ hmem
    simp at hp
  · rcases hrest with ⟨e2, hbh, hrun⟩ | ⟨bh, hbh, hcomp, hrun⟩ | ⟨bh, hbh, hcomp, hsub⟩
    · rw [hrun] at hmem
      simp [relayEvents] at hmem
    · rw [hrun] at hmem
      simp [relayEvents] at hmem
    · unfold SubmitOutcome at hsub
      rcases hsub with ⟨e2, hs, hr⟩ | ⟨s2, e2, hs, herr2, hr⟩ |
        ⟨s2, e2, hs, herr2, hsend, hr⟩ | ⟨s2, sg, hs, herr2, hsend, hr⟩
      · rw [hr] at hmem
        simp [relayEvents] at hmem
      · rw [hr] at hmem
        simp [relayEvents] at hmem
      · rw [hr] at hmem
        simp [relayEvents] at hmem
        obtain ⟨htx, hc2⟩ := hmem
        subst htx
        refine ⟨by rw [hr]; simp, ⟨s2, hs, herr2⟩, ?_, ?_⟩
        · intro tx2 cfg2 hm2
          rw [hr] at hm2
          simp [relayEvents] at hm2
          exact hm2.1
        · intro tx2 c2 hm2
          rw [hr] at hm2
          simp [relayEvents] at hm2
          exact hm2.1
      · rw [hr] at hmem
        simp [relayEvents] at hmem
        obtain ⟨htx, hc2⟩ := hmem
        subst htx
        refine ⟨by rw [hr]; simp, ⟨s2, hs, herr2⟩, ?_, ?_⟩
        · intro tx2 cfg2 hm2
          rw [hr] at hm2
          simp [relayEvents] at hm2
          exact hm2.1
        · intro tx2 c2 hm2
          rw [hr] at hm2
          simp [relayEvents] at hm2
          exact hm2.1

/-- Witness for C6: the successful single-feed concrete run. -/
theorem swb_C6_witness :
    NetEvent.sendConfirm tx0 Commitment.confirmed ∈ (runPipeline env0 kp0 [10]).2 ∧
    NetEvent.simulate tx0 simCfg ∈ (runPipeline env0 kp0 [10]).2 :=
  ⟨by decide,
   (swb_C6_sent_equals_simulated env0 kp0 [10] tx0 Commitment.confirmed (by decide)).1⟩

end SwbCrank

namespace SwbCrank

/-- The commitment/configuration policy each network event must satisfy:
blockhash fetch and send/confirm run at the client's confirmed commitment,
and any simulation uses exactly the literal simCfg configuration (processed
commitment, signature verification on, no blockhash replacement, inner
instructions captured). -/
def eventPolicy : NetEvent → Prop
  | .relayFetch _ => True
  | .getLatestBlockhash c => c = Commitment.confirmed
  | .simulate _ cfg => cfg = simCfg
  | .sendConfirm _ c => c = Commitment.confirmed

/-- C8: every event in every run's trace obeys the commitment policy — the
freshness-anchor fetch and the final send-and-confirm use confirmed
commitment, and the dry run uses the exact simCfg configuration, whose
literal fields disable recent-blockhash replacement (the assembled
transaction is simulated unmodified) and select processed commitment. -/
theorem swb_C8_commitments (env : Env) (kp : Keypair) (feeds : List Pubkey)
    (ev : NetEvent) (hmem : ev ∈ (runPipeline env kp feeds).2) :
    eventPolicy ev ∧ simCfg.replaceRecentBlockhash = false ∧
    simCfg.commitment = some Commitment.processed := by
  refine ⟨?_, rfl, rfl⟩
  rcases run_shape env kp feeds with ⟨hnil, hrun⟩ | ⟨e2, hc, hrun⟩ |
    ⟨ups, lmap, hc, hfa, htr, hrest⟩
  · rw [hrun] at hmem
    simp at hmem
  · rw [hrun] at hmem
    obtain ⟨p, hp⟩ := collect_trace_relay env kp.pubkey feeds [] [] _ hmem
    rw [hp]
    simp [eventPolicy]
  · rcases hrest with ⟨e2, hbh, hrun⟩ | ⟨bh, hbh, hcomp, hrun⟩ | ⟨bh, hbh, hcomp, hsub⟩
    · rw [hrun] at hmem
      simp [relayEvents] at hmem
      rcases hmem with ⟨a, ha, hev⟩ | hev
      · rw [← hev]
        simp [eventPolicy]
      · rw [hev]
        simp [eventPolicy]
    · rw [hrun] at hmem
      simp [relayEvents] at hmem
      rcases hmem with ⟨a, ha, hev⟩ | hev
      · rw [← hev]
        simp [eventPolicy]
      · rw [hev]
        simp [eventPolicy]
    · unfold SubmitOutcome at hsub
      rcases hsub with ⟨e2, hs, hr⟩ | ⟨s2, e2, hs, herr2, hr⟩ |
        ⟨s2, e2, hs, herr2, hsend, hr⟩ | ⟨s2, sg, hs, herr2, hsend, hr⟩ <;>
        rw [hr] at hmem <;> simp [relayEvents] at hmem
      · rcases hmem with ⟨a, ha, hev⟩ | hev | hev
        · rw [← hev]; simp [eventPolicy]
        · rw [hev]; simp [eventPolicy]
        · rw [hev]; simp [eventPolicy]
      · rcases hmem with ⟨a, ha, hev⟩ | hev | hev
        · rw [← hev]; simp [eventPolicy]
        · rw [hev]; simp [eventPolicy]
        · rw [hev]; simp [eventPolicy]
      · rcases hmem with ⟨a, ha, hev⟩ | hev | hev | hev
        · rw [← hev]; simp [eventPolicy]
        · rw [hev]; simp [eventPolicy]
        · rw [hev]; simp [eventPolicy]
        · rw [hev]; simp [eventPolicy]
      · rcases hmem with ⟨a, ha, hev⟩ | hev | hev | hev
        · rw [← hev]; simp [eventPolicy]
        · rw [hev]; simp [eventPolicy]
        · rw [hev]; simp [eventPolicy]
        · rw [hev]; simp [eventPolicy]

/-- Witness for C8 at the simulation event of a concrete run. -/
theorem swb_C8_witness :
    NetEvent.simulate tx0 simCfg ∈ (runPipeline env0 kp0 [10]).2 ∧
    eventPolicy (NetEvent.simulate tx0 simCfg) ∧
    simCfg.replaceRecentBlockhash = false ∧
    simCfg.commitment = some Commitment.processed := by
  have h := swb_C8_commitments env0 kp0 [10] (NetEvent.simulate tx0 simCfg) (by decide)
  exact ⟨by decide, h.1, h.2.1, h.2.2⟩

end SwbCrank

namespace SwbCrank

/-- C10: the dry run's configuration literal enables signature verification
and inner-instruction capture, every simulation the pipeline performs uses
exactly that configuration, and a send/confirm happens only for a
transaction whose (signature-verifying) simulation returned without error —
so a transaction whose signatures do not verify is rejected at the gate
before any submission. -/
theorem swb_C10_sig_verify (env : Env) (kp : Keypair) (feeds : List Pubkey) :
    simCfg.sigVerify = true ∧ simCfg.innerInstructions = true ∧
    (∀ tx cfg, NetEvent.simulate tx cfg ∈ (runPipeline env kp feeds).2 → cfg = simCfg) ∧
    (∀ tx c, NetEvent.sendConfirm tx c ∈ (runPipeline env kp feeds).2 →
      ∃ s, env.simulate tx simCfg = .ok s ∧ s.err = none) := by
  refine ⟨rfl, rfl, ?_, ?_⟩
  · intro tx cfg hmem
    rcases run_shape env kp feeds with ⟨hnil, hrun⟩ | ⟨e2, hc, hrun⟩ |
      ⟨ups, lmap, hc, hfa, htr, hrest⟩
    · rw [hrun] at hmem
      simp at hmem
    · rw [hrun] at hmem
      obtain ⟨p, hp⟩ := collect_trace_relay env kp.pubkey feeds [] [] _ hmem
      simp at hp
    · rcases hrest with ⟨e2, hbh, hrun⟩ | ⟨bh, hbh, hcomp, hrun⟩ | ⟨bh, hbh, hcomp, hsub⟩
      · rw [hrun] at hmem
        simp [relayEvents] at hmem
      · rw [hrun] at hmem
        simp [relayEvents] at hmem
      · unfold SubmitOutcome at hsub
        rcases hsub with ⟨e2, hs, hr⟩ | ⟨s2, e2, hs, herr2, hr⟩ |
          ⟨s2, e2, hs, herr2, hsend, hr⟩ | ⟨s2, sg, hs, herr2, hsend, hr⟩ <;>
          rw [hr] at hmem <;> simp [relayEvents] at hmem
        · exact hmem.2
        · exact hmem.2
        · exact hmem.2
        · exact hmem.2
  · intro tx c hmem
    rcases run_shape env kp feeds with ⟨hnil, hrun⟩ | ⟨e2, hc, hrun⟩ |
      ⟨ups, lmap, hc, hfa, htr, hrest⟩
    · rw [hrun] at hmem
      simp at hmem
    · rw [hrun] at hmem
      obtain ⟨p, hp⟩ := collect_trace_relay env kp.pubkey feeds [] [] _ hmem
      simp at hp
    · rcases hrest with ⟨e2, hbh, hrun⟩ | ⟨bh, hbh, hcomp, hrun⟩ | ⟨bh, hbh, hcomp, hsub⟩
      · rw [hrun] at hmem
        simp [relayEvents] at hmem
      · rw [hrun] at hmem
        simp [relayEvents] at hmem
      · unfold SubmitOutcome at hsub
        rcases hsub with ⟨e2, hs, hr⟩ | ⟨s2, e2, hs, herr2, hr⟩ |
          ⟨s2, e2, hs, herr2, hsend, hr⟩ | ⟨s2, sg, hs, herr2, hsend, hr⟩ <;>
          rw [hr] at hmem <;> simp [relayEvents] at hmem
        · obtain ⟨htx, hc2⟩ := hmem
          subst htx
          exact ⟨s2, hs, herr2⟩
        · obtain ⟨htx, hc2⟩ := hmem
          subst htx
          exact ⟨s2, hs, herr2⟩

/-- Witness for C10: the successful single-feed concrete run. -/
theorem swb_C10_witness :
    NetEvent.simulate tx0 simCfg ∈ (runPipeline env0 kp0 [10]).2 ∧
    simCfg.sigVerify = true ∧ simCfg.innerInstructions = true ∧
    simCfg = simCfg := by
  have h := swb_C10_sig_verify env0 kp0 [10]
  exact ⟨by decide, h.1, h.2.1, h.2.2.1 tx0 simCfg (by decide)⟩

end SwbCrank
